import Mathlib

/-!
Verification of the BioScout retrieval-augmented query subsystem.

This file shallowly embeds the parts of the BioScout sources that the
spec's claims are about:

* `services/simple_rag.py` (keyword RAG fallback: term extraction,
  knowledge/observation selection, context assembly, query pipeline),
* `services/llamaindex_rag.py` (semantic retrieval path and its
  fallback responses),
* `routes/query_routes.py` (top-level query entry point),
* `services/rag_updater.py` (index-sync daemon, indexed-observation
  ledger, cooldown state machine),
* `services/csv_service.py` (observation store: plant/animal routing,
  species/location lookup).

Python strings are modelled as Lean `String`, Python lists as `List`,
Python dicts with a fixed key set as structures (CSV-sourced
observation dicts always carry every header key, so `dict.get`
defaults for those keys never fire and fields are total).  Calls into
the outside world (OpenAI, the vector engine, the filesystem) are
modelled as environment-supplied `Except Unit` values; a Python
exception is the `.error` case, and a `try/except` block is a `match`
on such a value.
-/

namespace BioScout

/-! ### Python string primitives -/

/-- Python `str.lower` restricted to ASCII case folding (all vocabulary
lists in the source are ASCII). -/
def pyLower (s : String) : String :=
  ⟨s.data.map Char.toLower⟩

/-- Boolean test that the first list occurs as a contiguous run inside
the second. -/
def listInfixOf [BEq α] : List α → List α → Bool
  | needle, [] => needle.isEmpty
  | needle, h :: t =>
    needle.isPrefixOf (h :: t) || listInfixOf needle t

/-- Python's `needle in hay` substring test (empty needle matches). -/
def strContains (hay needle : String) : Bool :=
  listInfixOf needle.data hay.data

/-- Python's `str.split()` with no argument: split on whitespace runs,
dropping empty fields. -/
def pySplitAux : List Char → List Char → List String
  | [], cur => if cur.isEmpty then [] else [⟨cur.reverse⟩]
  | c :: cs, cur =>
    if c.isWhitespace then
      if cur.isEmpty then pySplitAux cs [] else (⟨cur.reverse⟩ : String) :: pySplitAux cs []
    else pySplitAux cs (c :: cur)

def pySplit (s : String) : List String :=
  pySplitAux s.data []

/-- Python slicing `s[:n]`. -/
def pyTake (n : Nat) (s : String) : String :=
  ⟨s.data.take n⟩

/-- Python's `str.replace(pat, rep)`: leftmost, non-overlapping, with
fuel bounded by the string length (`pat` is nonempty at every call
site in the source). -/
def pyReplaceAux (pat rep : List Char) : Nat → List Char → List Char
  | 0, l => l
  | _ + 1, [] => []
  | n + 1, c :: cs =>
    if pat.isPrefixOf (c :: cs) then
      rep ++ pyReplaceAux pat rep n ((c :: cs).drop pat.length)
    else
      c :: pyReplaceAux pat rep n cs

def pyReplace (s pat rep : String) : String :=
  ⟨pyReplaceAux pat.data rep.data s.data.length s.data⟩

/-! ### Data model -/

/-- An observation row, as read from the observations CSV files
(`csv_service.py` header: id, user_id, species_name, date_observed,
location, coordinates, image_url, notes, ai_identification,
created_at, category, quantity, habitat_type, species_type; the
fields not consulted by the retrieval pipeline are omitted).
`coordinates` is the parsed `[longitude, latitude]` pair; `[]` stands
for an absent or empty (falsy) coordinates value, which the source
treats identically (`if 'coordinates' in obs and obs['coordinates']`). -/
structure Obs where
  id : String
  species_name : String
  location : String
  date_observed : String
  notes : String
  ai_identification : String
  coordinates : List Int
  deriving DecidableEq, Repr

/-- A knowledge file as loaded by `simple_rag.load_knowledge_files`. -/
structure Knowledge where
  filename : String
  content : String
  deriving DecidableEq, Repr

/-- A GeoJSON-like map feature as produced by `format_observations`. -/
structure Feature where
  geomType : String
  coordinates : List Int
  id : String
  species : String
  date : String
  location : String
  notes : String
  deriving DecidableEq, Repr

/-- A query-result dict.  Keys that some return sites omit are
`Option`-valued with `none` meaning "key absent", so that "the dict
carries a success flag" is a real statement about each return site. -/
structure QueryResult where
  response : String
  success : Option Bool
  observations : Option (List Feature)
  using_fallback : Option Bool
  note : Option String
  deriving DecidableEq, Repr

/-- The observation store: the two CSV files of `csv_service.py`.
`save_observation` routes a row to one of them by the plant-keyword
heuristic. -/
structure Store where
  plants : List Obs
  animals : List Obs
  deriving DecidableEq, Repr

/-! ### csv_service.py -/

namespace CsvService

/-- Embeds `PLANT_KEYWORDS` from `csv_service.py`. -/
def PLANT_KEYWORDS : List String :=
  ["pine", "cedar", "tree", "plant", "flower", "shrub", "herb",
   "amaltas", "neem", "mulberry", "date palm", "shisham",
   "bottle brush", "tulsi", "blue pine", "chir pine", "himalayan cedar",
   "fern", "grass", "vine", "bush", "conifer", "oak", "maple"]

/-- Embeds `csv_service.is_plant_species`. -/
def is_plant_species (species_name : String) : Bool :=
  if species_name = "" then false
  else PLANT_KEYWORDS.any (fun k => strContains (pyLower species_name) k)

/-- Embeds `csv_service.save_observation`: route the row to the plants or the
animals CSV by the plant-keyword heuristic (id generation and
timestamping are outside the model; the row carries its id). -/
def save_observation (o : Obs) (s : Store) : Store :=
  if is_plant_species o.species_name then
    { s with plants := s.plants ++ [o] }
  else
    { s with animals := s.animals ++ [o] }

/-- Embeds `csv_service.find_all_observations` (plants file first, then
animals, as in the source). -/
def find_all_observations (s : Store) : List Obs :=
  s.plants ++ s.animals

/-- Embeds `csv_service.find_all_plant_observations`. -/
def find_all_plant_observations (s : Store) : List Obs :=
  s.plants

/-- Embeds `csv_service.find_all_animal_observations`. -/
def find_all_animal_observations (s : Store) : List Obs :=
  s.animals

/-- Embeds `csv_service.find_observations_by_species`: pick the file by the
plant heuristic, then case-insensitive substring filter on
species_name. -/
def find_observations_by_species (s : Store) (species_name : String) : List Obs :=
  if species_name = "" then []
  else
    let nl := pyLower species_name
    let pool := if is_plant_species nl then s.plants else s.animals
    pool.filter (fun o => strContains (pyLower o.species_name) nl)

/-- Embeds `csv_service.find_observations_by_location`: search both files. -/
def find_observations_by_location (s : Store) (location_name : String) : List Obs :=
  if location_name = "" then []
  else
    let nl := pyLower location_name
    (s.plants ++ s.animals).filter (fun o => strContains (pyLower o.location) nl)

end CsvService

/-! ### simple_rag.py -/

namespace SimpleRag

/-- Known locations list from `simple_rag.extract_key_terms`. -/
def locations : List String :=
  ["margalla hills", "rawal lake", "shakarparian", "daman-e-koh",
   "pir sohawa", "trail", "islamabad", "f-9 park", "zoo"]

/-- Animal category list from `simple_rag.extract_key_terms`. -/
def categories : List String :=
  ["bird", "birds", "mammal", "mammals", "reptile", "reptiles",
   "amphibian", "amphibians", "fish"]

/-- Plant term list from `simple_rag.extract_key_terms`. -/
def plant_terms : List String :=
  ["plant", "plants", "tree", "trees", "flower", "flowers",
   "shrub", "shrubs", "herb", "herbs", "pine", "cedar",
   "medicinal", "garden", "forest", "conifer", "invasive",
   "native", "vegetation", "botanical", "flora"]

/-- Plant species list from `simple_rag.extract_key_terms`. -/
def plant_species : List String :=
  ["chir pine", "blue pine", "himalayan cedar", "deodar",
   "phulai", "acacia", "shisham", "siris", "wild date palm",
   "date palm", "amaltas", "jacaranda", "bottle brush",
   "silver oak", "paper mulberry", "ficus", "ber", "kau",
   "sanatha", "ajwain", "mint", "sage", "aloe vera", "tulsi",
   "arjun", "neem"]

/-- Embeds `simple_rag.extract_key_terms`: collect vocabulary entries that
occur (case-insensitively) inside the query, in list order. -/
def extract_key_terms (query : String) : List String :=
  let ql := pyLower query
  locations.filter (fun t => strContains ql t) ++
  categories.filter (fun t => strContains ql t) ++
  plant_terms.filter (fun t => strContains ql t) ++
  plant_species.filter (fun t => strContains ql t)

/-- The plant-leaning test used by `get_relevant_observations` and
`build_context`. -/
def is_plant_query (query : String) : Bool :=
  ["plant", "tree", "flower", "shrub", "herb", "botanical", "flora",
   "vegetation"].any (fun t => strContains (pyLower query) t)

/-- The animal-leaning test used by `get_relevant_observations` and
`build_context`. -/
def is_animal_query (query : String) : Bool :=
  ["animal", "mammal", "bird", "reptile", "amphibian", "fish",
   "wildlife", "fauna"].any (fun t => strContains (pyLower query) t)

/-- The plant-priority seed of `simple_rag.get_relevant_knowledge`
(first loop: for plant-flavored queries, contents of knowledge files
whose filename mentions "plant"). -/
def grkSeed (query : String) (knowledge_files : List Knowledge) : List String :=
  if ["plant", "tree", "flora", "vegetation"].any
      (fun t => strContains (pyLower query) t) then
    (knowledge_files.filter
      (fun k => strContains (pyLower k.filename) "plant")).map (·.content)
  else []

/-- One iteration of the main loop of
`simple_rag.get_relevant_knowledge`: term match, else long-word match,
each with the source's duplicate check. -/
def grkStep (terms : List String) (ql : String)
    (acc : List String) (k : Knowledge) : List String :=
  let cl := pyLower k.content
  if terms.any (fun t => strContains cl t) then
    if k.content ∈ acc then acc else acc ++ [k.content]
  else if (pySplit ql).any
      (fun w => decide (3 < w.length) && strContains cl w) then
    if k.content ∈ acc then acc else acc ++ [k.content]
  else acc

/-- Embeds `simple_rag.get_relevant_knowledge`. -/
def get_relevant_knowledge (query : String)
    (knowledge_files : List Knowledge) : List String :=
  knowledge_files.foldl
    (grkStep (extract_key_terms query) (pyLower query))
    (grkSeed query knowledge_files)

/-- The category-filtered knowledge loop at the top of
`simple_rag.build_context` (appends matching contents with no
duplicate check). -/
def category_knowledge (query : String)
    (knowledge_files : List Knowledge) : List String :=
  if is_plant_query query && !is_animal_query query then
    (knowledge_files.filter (fun k =>
      let cl := pyLower k.content
      strContains cl "plant" || strContains cl "tree" ||
      strContains cl "botanical")).map (·.content)
  else if is_animal_query query && !is_plant_query query then
    (knowledge_files.filter (fun k =>
      let cl := pyLower k.content
      strContains cl "animal" || strContains cl "mammal" ||
      strContains cl "bird" || strContains cl "wildlife")).map (·.content)
  else []

/-- The knowledge list `build_context` actually renders: the category
loop's output, or `get_relevant_knowledge` when that is empty. -/
def selected_knowledge (query : String)
    (knowledge_files : List Knowledge) : List String :=
  if (category_knowledge query knowledge_files).isEmpty then
    get_relevant_knowledge query knowledge_files
  else category_knowledge query knowledge_files

/-- The exact species-mention test of
`simple_rag.get_relevant_observations`: the observation's species
name, lowercased, is nonempty and occurs inside the lowercased query
(`ql`). -/
def exact_species_match (ql : String) (o : Obs) : Bool :=
  !(pyLower o.species_name).isEmpty && strContains ql (pyLower o.species_name)

/-- The exact species-mention loop of
`simple_rag.get_relevant_observations`: keep observations whose
(nonempty, lowercased) species name is a substring of the lowercased
query, skipping entries already collected. -/
def exactLoop (ql : String) : List Obs → List Obs → List Obs
  | [], acc => acc
  | o :: os, acc =>
    exactLoop ql os
      (if exact_species_match ql o && !(decide (o ∈ acc)) then
        acc ++ [o] else acc)

/-- The per-term location fallback loop of
`get_relevant_observations`. -/
def locLoop (t : String) : List Obs → List Obs → List Obs
  | [], acc => acc
  | o :: os, acc =>
    locLoop t os
      (if strContains (pyLower o.location) t && !(decide (o ∈ acc)) then
        acc ++ [o] else acc)

/-- The key-term loop of `get_relevant_observations`: per term, first
species-name matches (filtered against the accumulator so far), else
location matches. -/
def termLoop (base : List Obs) : List String → List Obs → List Obs
  | [], acc => acc
  | t :: ts, acc =>
    termLoop base ts
      (if (base.filter (fun o =>
          strContains (pyLower o.species_name) t &&
          !(decide (o ∈ acc)))).isEmpty then
        locLoop t base acc
      else
        acc ++ base.filter (fun o =>
          strContains (pyLower o.species_name) t && !(decide (o ∈ acc))))

/-- The candidate pool chosen by `get_relevant_observations` from the
query's category leaning (`Observation.find_plants` /
`find_animals` / `find_all`). -/
def base_observations (query : String) (s : Store) : List Obs :=
  if is_plant_query query && !is_animal_query query then
    CsvService.find_all_plant_observations s
  else if is_animal_query query && !is_plant_query query then
    CsvService.find_all_animal_observations s
  else
    CsvService.find_all_observations s

/-- The exact species matches collected by the first loop of
`get_relevant_observations`. -/
def exact_candidates (query : String) (base : List Obs) : List Obs :=
  exactLoop (pyLower query) base []

/-- Embeds `simple_rag.get_relevant_observations`: exact species mentions if
any (short-circuiting), else the key-term loop; capped at 10. -/
def get_relevant_observations (query : String) (s : Store) : List Obs :=
  (if (exact_candidates query (base_observations query s)).isEmpty then
    termLoop (base_observations query s) (extract_key_terms query) []
  else
    exact_candidates query (base_observations query s)).take 10

/-- One rendered knowledge entry of `build_context`
(`[i] preview...` with the 1000-character, newline-collapsed preview). -/
def knowledge_entry (i : Nat) (content : String) : String :=
  "[" ++ toString i ++ "] " ++
  pyReplace (pyReplace (pyTake 1000 content) "\n\n" " ") "\n" " " ++
  "...\n\n"

/-- The numbered knowledge section body of `build_context`. -/
def knowledge_section : Nat → List String → String
  | _, [] => ""
  | i, k :: ks => knowledge_entry i k ++ knowledge_section (i + 1) ks

/-- One rendered observation line of `build_context`. -/
def obs_line (o : Obs) : String :=
  "- " ++ o.species_name ++ " observed at " ++ o.location ++
  " on " ++ o.date_observed ++ "\n"

/-- The observation section body of `build_context`. -/
def obs_section : List Obs → String
  | [] => ""
  | o :: os => obs_line o ++ obs_section os

/-- Embeds `simple_rag.build_context`. -/
def build_context (query : String) (knowledge_files : List Knowledge)
    (observations : List Obs) : String :=
  (if (selected_knowledge query knowledge_files).isEmpty then ""
   else "Knowledge Base Information:\n" ++
     knowledge_section 1 ((selected_knowledge query knowledge_files).take 3)) ++
  (if observations.isEmpty then ""
   else "\nRecent Observations:\n" ++ obs_section (observations.take 5))

/-- The sentinel context substituted by `simple_rag.process_query`
when `build_context` comes back empty. -/
def SENTINEL : String :=
  "No specific information found in our knowledge base."

/-- The context string actually handed to the LLM prompt by
`simple_rag.process_query` (lines 236-239 of the source). -/
def context_for_llm (query : String) (knowledge_files : List Knowledge)
    (observations : List Obs) : String :=
  if build_context query knowledge_files observations = "" then SENTINEL
  else build_context query knowledge_files observations

/-- A `Point` feature for one observation, as built by
`format_observations` in both `simple_rag.py` and
`llamaindex_rag.py` (the two definitions are textually identical). -/
def obs_feature (o : Obs) : Feature :=
  { geomType := "Point", coordinates := o.coordinates, id := o.id,
    species := o.species_name, date := o.date_observed,
    location := o.location, notes := o.notes }

/-- Embeds `format_observations`: one feature per observation with a present,
non-empty coordinates value, in input order. -/
def format_observations : List Obs → List Feature
  | [] => []
  | o :: os =>
    if !o.coordinates.isEmpty then obs_feature o :: format_observations os
    else format_observations os

/-- Fixed apology dict returned by the catch-all handler of
`simple_rag.process_query`. -/
def SIMPLE_FAIL : QueryResult :=
  { response := "I\x27m sorry, I\x27m having trouble processing your question at the moment. Please try again later.",
    success := some false, observations := some [],
    using_fallback := none, note := none }

/-- Environment of `simple_rag.process_query`: the outcome of the
fallible calls in its `try` body.  `loadKnowledge` is the
`load_knowledge_files` call (its internal per-file handler can still
let a directory-listing error escape); `store` backs the
`Observation.find_*` calls (total: `csv_service` catches internally);
`llmCall` is the OpenAI chat-completion call, applied to the assembled
context and the query text. -/
structure QueryEnv where
  loadKnowledge : Except Unit (List Knowledge)
  store : Store
  llmCall : String → String → Except Unit String

/-- The `try` body of `simple_rag.process_query`; `.error` means a
Python exception escaped the body into the handler.  The steps, in
source order: load the knowledge files, select observations, build
the context (with the sentinel substitution), call the LLM. -/
def simple_pipeline (env : QueryEnv) (query_text : String) :
    Except Unit QueryResult :=
  match env.loadKnowledge with
  | .error e => .error e
  | .ok knowledge_files =>
    match env.llmCall
        (context_for_llm query_text knowledge_files
          (get_relevant_observations query_text env.store)) query_text with
    | .error e => .error e
    | .ok resp =>
      .ok { response := resp, success := some true,
            observations := some (format_observations
              (get_relevant_observations query_text env.store)),
            using_fallback := some true, note := none }

/-- Embeds `simple_rag.process_query`: the `try` body, with the catch-all
`except` returning the fixed apology dict.  Total: no exception leaves
this function. -/
def process_query (env : QueryEnv) (query_text : String) : QueryResult :=
  match simple_pipeline env query_text with
  | .ok d => d
  | .error _ => SIMPLE_FAIL

end SimpleRag

/-! ### llamaindex_rag.py -/

namespace LlamaRag

/-- Known locations list from `llamaindex_rag.extract_key_terms`
(shorter than the `simple_rag` one: no "f-9 park", no "zoo"). -/
def locations : List String :=
  ["margalla hills", "rawal lake", "shakarparian", "daman-e-koh",
   "pir sohawa", "trail", "islamabad"]

/-- Animal category list from `llamaindex_rag.extract_key_terms`. -/
def categories : List String :=
  ["bird", "birds", "mammal", "mammals", "reptile", "reptiles",
   "amphibian", "amphibians", "fish"]

/-- Embeds `llamaindex_rag.extract_key_terms`. -/
def extract_key_terms (query : String) : List String :=
  let ql := pyLower query
  locations.filter (fun t => strContains ql t) ++
  categories.filter (fun t => strContains ql t)

/-- The observation-collection loop of `llamaindex_rag.process_query`:
per term, `Observation.find_by_species` results then
`Observation.find_by_location` results, concatenated. -/
def collect_observations (s : Store) : List String → List Obs
  | [] => []
  | t :: ts =>
    CsvService.find_observations_by_species s t ++
    CsvService.find_observations_by_location s t ++
    collect_observations s ts

/-- The observation context assembled by
`llamaindex_rag.fallback_response`. -/
def fallback_context_lines : List Obs → String
  | [] => ""
  | o :: os =>
    "- " ++ o.species_name ++ " observed at " ++ o.location ++ "\n" ++
    fallback_context_lines os

def fallback_context (observations : List Obs) : String :=
  "Based on our records:\n" ++ fallback_context_lines (observations.take 5)

/-- Environment of the semantic-retrieval path: module availability,
whether the global `vector_index` is already built, the Boolean result
of a lazy `initialize_index()` call (it catches internally and returns
False on failure), the engine's query call, the direct OpenAI call
used by `fallback_response`, the store behind `Observation.find_*`,
and the environment of the `simple_rag` fallback. -/
structure LIEnv where
  available : Bool
  indexInitialized : Bool
  initOutcome : Bool
  engineQuery : String → Except Unit String
  fallbackLLM : String → String → Except Unit String
  store : Store
  simpleEnv : SimpleRag.QueryEnv

/-- Embeds `llamaindex_rag.fallback_response`: direct OpenAI call over the
observation-only context; its catch-all handler returns the apology
dict (with the features of the collected observations attached).
Total. -/
def fallback_response (env : LIEnv) (query : String)
    (observations : List Obs) : QueryResult :=
  match env.fallbackLLM (fallback_context observations) query with
  | .ok resp =>
    { response := resp, success := some true,
      observations := some (SimpleRag.format_observations observations),
      using_fallback := none, note := some "Using fallback response method" }
  | .error _ =>
    { response := "I\x27m sorry, I\x27m having trouble processing your question at the moment. Please try again later.",
      success := some false,
      observations := some (SimpleRag.format_observations observations),
      using_fallback := none, note := none }

/-- Embeds `llamaindex_rag.process_query`.  `.error` would mean a Python
exception escaping to the caller; every fallible step is matched the
way the source's `try/except` blocks catch it.  (The two `except`
arms around the `simple_rag` fallback calls are unreachable because
`SimpleRag.process_query` is total; they are therefore not
represented.) -/
def process_query (env : LIEnv) (query_text : String) :
    Except Unit QueryResult :=
  if !env.available then
    .ok (SimpleRag.process_query env.simpleEnv query_text)
  else if !env.indexInitialized && !env.initOutcome then
    .ok (SimpleRag.process_query env.simpleEnv query_text)
  else
    let observation_results :=
      collect_observations env.store (extract_key_terms query_text)
    match env.engineQuery query_text with
    | .ok resp =>
      .ok { response := resp, success := some true,
            observations :=
              some (SimpleRag.format_observations observation_results),
            using_fallback := none, note := none }
    | .error _ =>
      .ok (fallback_response env query_text observation_results)

end LlamaRag

/-! ### routes/query_routes.py -/

namespace QueryRoutes

/-- Outcome of the semantic-retrieval stage as seen from
`handle_query`: the call either raises or returns a dict. -/
inductive StageOutcome where
  | raises : StageOutcome
  | retn : QueryResult → StageOutcome
  deriving DecidableEq

structure RouteEnv where
  llamaAvailable : Bool
  llamaOutcome : StageOutcome
  simpleEnv : SimpleRag.QueryEnv

/-- A flask response: body dict plus HTTP status. -/
structure HttpResponse where
  body : QueryResult
  status : Nat
  deriving DecidableEq

/-- Embeds `query_routes.handle_query` for a request that carries a query
string.  The final `except` (the 500 response) guards the
`simple_rag` call, which is total, so it is unreachable; `.error`
would represent an exception escaping to flask. -/
def handle_query (env : RouteEnv) (query_text : String) :
    Except Unit HttpResponse :=
  match env.llamaAvailable, env.llamaOutcome with
  | true, .retn d =>
    if d.success = some true then .ok ⟨d, 200⟩
    else .ok ⟨SimpleRag.process_query env.simpleEnv query_text, 200⟩
  | true, .raises =>
    .ok ⟨SimpleRag.process_query env.simpleEnv query_text, 200⟩
  | false, _ =>
    .ok ⟨SimpleRag.process_query env.simpleEnv query_text, 200⟩

end QueryRoutes

/-! ### rag_updater.py -/

namespace RagUpdater

/-- The persisted ledger file.  `missing` = file absent, `corrupt` =
present but unreadable/unparseable JSON, `ok ids` = parseable with the
given `indexed_observations` array (the `last_update` timestamp is not
consulted by any reader and is omitted). -/
inductive LedgerFile where
  | missing : LedgerFile
  | corrupt : LedgerFile
  | ok : List String → LedgerFile
  deriving DecidableEq

/-- Embeds `rag_updater.get_indexed_observations`: a missing file is
initialized empty and read as `[]`; an unreadable/unparseable file is
caught and read as `[]`. -/
def get_indexed_observations : LedgerFile → List String
  | .missing => []
  | .corrupt => []
  | .ok ids => ids

/-- Embeds `rag_updater.log_indexed_observation`: read the ledger, skip if
the id is already present, else append and rewrite the whole file. -/
def log_indexed_observation (observation_id : String)
    (f : LedgerFile) : LedgerFile :=
  let indexed_ids := get_indexed_observations f
  if observation_id ∈ indexed_ids then f
  else .ok (indexed_ids ++ [observation_id])

/-- Embeds `rag_updater._update_simple_rag`: diff the full observation list
against the ledger and log each new observation's id (the simple RAG
path keeps no index, so this is ledger-only bookkeeping). -/
def update_simple_rag (all_observations : List Obs)
    (f : LedgerFile) : LedgerFile :=
  if (all_observations.filter (fun o =>
      !(decide (o.id ∈ get_indexed_observations f)))).isEmpty then f
  else (all_observations.filter (fun o =>
      !(decide (o.id ∈ get_indexed_observations f)))).foldl
    (fun acc o => log_indexed_observation o.id acc) f

/-- Embeds `rag_updater._update_llamaindex`: same diff-and-log, plus the
documents derived from the new observations are inserted into the
vector index when it exists (`observation_to_document` returns a
document for every observation dict; when `vector_index is None` the
function returns after logging, inserting nothing).  The second
component is the list of observations whose documents were inserted
this run. -/
def update_llamaindex (indexExists : Bool) (all_observations : List Obs)
    (f : LedgerFile) : LedgerFile × List Obs :=
  if (all_observations.filter (fun o =>
      !(decide (o.id ∈ get_indexed_observations f)))).isEmpty then (f, [])
  else
    ((all_observations.filter (fun o =>
        !(decide (o.id ∈ get_indexed_observations f)))).foldl
      (fun acc o => log_indexed_observation o.id acc) f,
     if indexExists then
       all_observations.filter (fun o =>
         !(decide (o.id ∈ get_indexed_observations f)))
     else [])

/-- The cooldown period (seconds), `UPDATE_COOLDOWN`. -/
def UPDATE_COOLDOWN : Nat := 60

/-- The module-level mutable state of `rag_updater.py` relevant to the
notification handler, plus whether the non-reentrant `threading.Lock`
`update_lock` is currently held.  (A single thread runs the handler,
so "held" can only mean held by that same thread.) -/
structure DaemonState where
  needs_update : Bool
  last_update_time : Nat
  lockHeld : Bool
  deriving DecidableEq, Repr

/-- Embeds `rag_updater.update_rag_index`, entered at time `now`.  Its body
is `with update_lock: ...`; `update_lock` is a plain (non-reentrant)
`threading.Lock`, so acquiring it while it is already held blocks
forever — modelled as `none` (the call never returns). -/
def update_rag_index (now : Nat) (s : DaemonState) : Option DaemonState :=
  if s.lockHeld then none
  else
    let s1 : DaemonState := ⟨s.needs_update, s.last_update_time, true⟩
    if !s1.needs_update then
      some ⟨s1.needs_update, s1.last_update_time, false⟩
    else
      some ⟨false, now, false⟩

/-- Embeds `rag_updater.signal_update_needed`, entered at time `now`: take
`update_lock`, set `needs_update`, and if the cooldown has elapsed
call `update_rag_index()` while still holding the lock. -/
def signal_update_needed (now : Nat) (s : DaemonState) : Option DaemonState :=
  if s.lockHeld then none
  else
    let s1 : DaemonState := ⟨true, s.last_update_time, true⟩
    if UPDATE_COOLDOWN < now - s1.last_update_time then
      match update_rag_index now s1 with
      | none => none
      | some s2 => some ⟨s2.needs_update, s2.last_update_time, false⟩
    else
      some ⟨s1.needs_update, s1.last_update_time, false⟩

end RagUpdater

/-! ## Lemmas about the ledger operations -/

namespace RagUpdater

theorem get_log (id : String) (f : LedgerFile) :
    get_indexed_observations (log_indexed_observation id f) =
      if id ∈ get_indexed_observations f then get_indexed_observations f
      else get_indexed_observations f ++ [id] := by
  cases f with
  | missing => simp [log_indexed_observation, get_indexed_observations]
  | corrupt => simp [log_indexed_observation, get_indexed_observations]
  | ok ids =>
    by_cases h : id ∈ ids <;>
      simp [log_indexed_observation, get_indexed_observations, h]

theorem mem_get_log {x : String} (id : String) (f : LedgerFile)
    (hx : x ∈ get_indexed_observations f) :
    x ∈ get_indexed_observations (log_indexed_observation id f) := by
  rw [get_log]; split <;> simp [hx]

theorem mem_get_log_self (id : String) (f : LedgerFile) :
    id ∈ get_indexed_observations (log_indexed_observation id f) := by
  rw [get_log]; split <;> simp_all

theorem nodup_log (id : String) (f : LedgerFile)
    (h : (get_indexed_observations f).Nodup) :
    (get_indexed_observations (log_indexed_observation id f)).Nodup := by
  rw [get_log]; split
  · exact h
  · simp_all [List.nodup_append]

/-- The shared diff-and-log fold of the two sync variants. -/
def foldLog (L : List Obs) (f : LedgerFile) : LedgerFile :=
  L.foldl (fun acc o => log_indexed_observation o.id acc) f

theorem foldLog_mono (L : List Obs) (f : LedgerFile) {x : String}
    (hx : x ∈ get_indexed_observations f) :
    x ∈ get_indexed_observations (foldLog L f) := by
  induction L generalizing f with
  | nil => simpa [foldLog] using hx
  | cons o os ih => exact ih _ (mem_get_log o.id f hx)

theorem foldLog_mem_elt (L : List Obs) (f : LedgerFile) :
    ∀ o ∈ L, o.id ∈ get_indexed_observations (foldLog L f) := by
  induction L generalizing f with
  | nil => simp
  | cons o os ih =>
    intro o' ho'
    rcases List.mem_cons.mp ho' with rfl | h
    · exact foldLog_mono os _ (mem_get_log_self o'.id f)
    · exact ih _ o' h

theorem foldLog_nodup (L : List Obs) (f : LedgerFile)
    (h : (get_indexed_observations f).Nodup) :
    (get_indexed_observations (foldLog L f)).Nodup := by
  induction L generalizing f with
  | nil => simpa [foldLog] using h
  | cons o os ih => exact ih _ (nodup_log o.id f h)

theorem foldLog_fresh (L : List Obs) (f : LedgerFile)
    (hids : (L.map (·.id)).Nodup)
    (hfresh : ∀ o ∈ L, o.id ∉ get_indexed_observations f) :
    get_indexed_observations (foldLog L f) =
      get_indexed_observations f ++ L.map (·.id) := by
  induction L generalizing f with
  | nil => simp [foldLog]
  | cons o os ih =>
    have hid : o.id ∉ get_indexed_observations f := hfresh o (by simp)
    have hstep : get_indexed_observations (log_indexed_observation o.id f) =
        get_indexed_observations f ++ [o.id] := by
      rw [get_log]; simp [hid]
    have hids2 : (o.id :: os.map (·.id)).Nodup := by simpa using hids
    have hids' : (os.map (·.id)).Nodup := (List.nodup_cons.mp hids2).2
    have hfresh' : ∀ o' ∈ os,
        o'.id ∉ get_indexed_observations (log_indexed_observation o.id f) := by
      intro o' ho'
      rw [hstep]
      simp only [List.mem_append, List.mem_singleton]
      rintro (h | h)
      · exact hfresh o' (by simp [ho']) h
      · have hmem : o'.id ∈ os.map (·.id) := List.mem_map_of_mem (·.id) ho'
        rw [h] at hmem
        exact (List.nodup_cons.mp hids2).1 hmem
    calc get_indexed_observations (foldLog (o :: os) f)
        = get_indexed_observations (foldLog os (log_indexed_observation o.id f)) := rfl
      _ = get_indexed_observations (log_indexed_observation o.id f) ++ os.map (·.id) :=
          ih _ hids' hfresh'
      _ = get_indexed_observations f ++ (o :: os).map (·.id) := by
          rw [hstep]; simp

theorem update_simple_rag_get (O : List Obs) (f : LedgerFile) :
    get_indexed_observations (update_simple_rag O f) =
      get_indexed_observations
        (foldLog (O.filter (fun o =>
          !(decide (o.id ∈ get_indexed_observations f)))) f) := by
  unfold update_simple_rag
  split
  · next h =>
    rw [List.isEmpty_iff] at h
    simp [foldLog, h]
  · rfl

theorem update_llamaindex_fst (ie : Bool) (O : List Obs) (f : LedgerFile) :
    (update_llamaindex ie O f).1 = update_simple_rag O f := by
  unfold update_llamaindex update_simple_rag
  split <;> rfl

theorem update_simple_rag_mono (O : List Obs) (f : LedgerFile) {x : String}
    (hx : x ∈ get_indexed_observations f) :
    x ∈ get_indexed_observations (update_simple_rag O f) := by
  rw [update_simple_rag_get]
  exact foldLog_mono _ _ hx

theorem update_simple_rag_mem (O : List Obs) (f : LedgerFile) :
    ∀ o ∈ O, o.id ∈ get_indexed_observations (update_simple_rag O f) := by
  intro o ho
  rw [update_simple_rag_get]
  by_cases h : o.id ∈ get_indexed_observations f
  · exact foldLog_mono _ _ h
  · exact foldLog_mem_elt _ _ o (List.mem_filter.mpr ⟨ho, by simp [h]⟩)

theorem update_simple_rag_nodup (O : List Obs) (f : LedgerFile)
    (h : (get_indexed_observations f).Nodup) :
    (get_indexed_observations (update_simple_rag O f)).Nodup := by
  rw [update_simple_rag_get]
  exact foldLog_nodup _ _ h

theorem update_simple_rag_stable (O : List Obs) (f : LedgerFile)
    (h : ∀ o ∈ O, o.id ∈ get_indexed_observations f) :
    update_simple_rag O f = f := by
  unfold update_simple_rag
  have hnil : O.filter (fun o =>
      !(decide (o.id ∈ get_indexed_observations f))) = [] := by
    simp only [List.filter_eq_nil_iff]
    intro o ho
    simp [h o ho]
  simp [hnil]

theorem update_llamaindex_stable_snd (ie : Bool) (O : List Obs) (f : LedgerFile)
    (h : ∀ o ∈ O, o.id ∈ get_indexed_observations f) :
    (update_llamaindex ie O f).2 = [] := by
  unfold update_llamaindex
  have hnil : O.filter (fun o =>
      !(decide (o.id ∈ get_indexed_observations f))) = [] := by
    simp only [List.filter_eq_nil_iff]
    intro o ho
    simp [h o ho]
  simp [hnil]

theorem update_llamaindex_snd_count (ie : Bool) (O : List Obs) (f : LedgerFile)
    (hO : O.Nodup) (o : Obs) :
    ((update_llamaindex ie O f).2).count o ≤ 1 := by
  have hcount : ∀ (l : List Obs), l.Sublist O → l.count o ≤ 1 := by
    intro l hl
    exact le_trans (hl.count_le o) (List.nodup_iff_count_le_one.mp hO o)
  unfold update_llamaindex
  split
  · simp
  · simp only
    split
    · simpa using hcount _ (List.filter_sublist O)
    · simp

end RagUpdater

/-! ## Lemmas about the observation-selection loops -/

namespace SimpleRag

theorem exactLoop_mono (ql : String) (l : List Obs) {acc : List Obs} {x : Obs}
    (hx : x ∈ acc) : x ∈ exactLoop ql l acc := by
  induction l generalizing acc with
  | nil => simpa [exactLoop] using hx
  | cons o os ih =>
    unfold exactLoop
    split
    · exact ih (by simp [hx])
    · exact ih hx

theorem exactLoop_subset (ql : String) (l : List Obs) {acc : List Obs} {x : Obs}
    (hx : x ∈ exactLoop ql l acc) : x ∈ acc ∨ x ∈ l := by
  induction l generalizing acc with
  | nil => exact Or.inl (by simpa [exactLoop] using hx)
  | cons o os ih =>
    unfold exactLoop at hx
    rcases ih hx with h | h
    · revert h
      split
      · intro h
        rcases List.mem_append.mp h with h | h
        · exact Or.inl h
        · exact Or.inr (by simp [List.mem_singleton.mp h])
      · intro h
        exact Or.inl h
    · exact Or.inr (by simp [h])

theorem exactLoop_pred (ql : String) (l : List Obs) {acc : List Obs} {x : Obs}
    (hx : x ∈ exactLoop ql l acc) :
    x ∈ acc ∨ exact_species_match ql x = true := by
  induction l generalizing acc with
  | nil => exact Or.inl (by simpa [exactLoop] using hx)
  | cons o os ih =>
    unfold exactLoop at hx
    rcases ih hx with h | h
    · revert h
      split
      · next hc =>
        intro h
        rcases List.mem_append.mp h with h | h
        · exact Or.inl h
        · right
          rw [List.mem_singleton.mp h]
          have hc' := hc
          simp only [Bool.and_eq_true] at hc'
          exact hc'.1
      · intro h
        exact Or.inl h
    · exact Or.inr h

theorem exactLoop_mem_of (ql : String) (l : List Obs) {acc : List Obs} {x : Obs}
    (hx : x ∈ l) (hp : exact_species_match ql x = true) :
    x ∈ exactLoop ql l acc := by
  induction l generalizing acc with
  | nil => cases hx
  | cons o os ih =>
    rcases List.mem_cons.mp hx with rfl | h
    · unfold exactLoop
      by_cases hmem : x ∈ acc
      · exact exactLoop_mono ql os (by split <;> simp [hmem])
      · rw [if_pos (by simp [hp, hmem])]
        exact exactLoop_mono ql os (by simp)
    · unfold exactLoop
      exact ih h

theorem exactLoop_eq_filter (ql : String) (l : List Obs) (acc : List Obs)
    (hnd : l.Nodup) (hdisj : ∀ x ∈ l, x ∉ acc) :
    exactLoop ql l acc = acc ++ l.filter (exact_species_match ql) := by
  induction l generalizing acc with
  | nil => simp [exactLoop]
  | cons o os ih =>
    have hno := (List.nodup_cons.mp hnd).1
    have hnd' := (List.nodup_cons.mp hnd).2
    unfold exactLoop
    by_cases hp : exact_species_match ql o = true
    · have hdisj2 : ∀ x ∈ os, x ∉ acc ++ [o] := by
        intro x hx
        simp only [List.mem_append, List.mem_singleton]
        rintro (h | h)
        · exact hdisj x (List.mem_cons_of_mem o hx) h
        · exact hno (by rw [← h]; exact hx)
      rw [if_pos (by simp [hp, hdisj o (by simp)])]
      rw [ih _ hnd' hdisj2, List.filter_cons_of_pos hp]
      simp
    · rw [if_neg (by simp [hp])]
      rw [ih _ hnd'
        (fun x hx h => hdisj x (List.mem_cons_of_mem o hx) h),
        List.filter_cons_of_neg (by simp [hp])]

theorem locLoop_subset (t : String) (l : List Obs) {acc : List Obs} {x : Obs}
    (hx : x ∈ locLoop t l acc) : x ∈ acc ∨ x ∈ l := by
  induction l generalizing acc with
  | nil => exact Or.inl (by simpa [locLoop] using hx)
  | cons o os ih =>
    unfold locLoop at hx
    rcases ih hx with h | h
    · revert h
      split
      · intro h
        rcases List.mem_append.mp h with h | h
        · exact Or.inl h
        · exact Or.inr (by simp [List.mem_singleton.mp h])
      · intro h
        exact Or.inl h
    · exact Or.inr (by simp [h])

theorem termLoop_subset (base : List Obs) (ts : List String) {acc : List Obs}
    {x : Obs} (hx : x ∈ termLoop base ts acc) : x ∈ acc ∨ x ∈ base := by
  induction ts generalizing acc with
  | nil => exact Or.inl (by simpa [termLoop] using hx)
  | cons t ts ih =>
    unfold termLoop at hx
    rcases ih hx with h | h
    · revert h
      split
      · intro h
        exact locLoop_subset t base h
      · intro h
        rcases List.mem_append.mp h with h | h
        · exact Or.inl h
        · exact Or.inr (List.mem_filter.mp h).1
    · exact Or.inr h

theorem exact_candidates_subset (q : String) (base : List Obs) {x : Obs}
    (hx : x ∈ exact_candidates q base) : x ∈ base := by
  rcases exactLoop_subset (pyLower q) base hx with h | h
  · cases h
  · exact h

theorem exact_candidates_pred (q : String) (base : List Obs) {x : Obs}
    (hx : x ∈ exact_candidates q base) :
    exact_species_match (pyLower q) x = true := by
  rcases exactLoop_pred (pyLower q) base hx with h | h
  · cases h
  · exact h

theorem get_relevant_observations_subset (q : String) (s : Store) :
    ∀ o ∈ get_relevant_observations q s, o ∈ base_observations q s := by
  intro o ho
  unfold get_relevant_observations at ho
  have ho' := List.take_subset _ _ ho
  revert ho'
  split
  · intro h
    rcases termLoop_subset _ _ h with h | h
    · cases h
    · exact h
  · intro h
    exact exact_candidates_subset q _ h

end SimpleRag

/-! ## Lemmas about the query pipelines -/

namespace SimpleRag

theorem simple_pipeline_ok_success (env : QueryEnv) (q : String)
    {d : QueryResult} (h : simple_pipeline env q = .ok d) :
    d.success = some true := by
  unfold simple_pipeline at h
  split at h
  · cases h
  · split at h
    · cases h
    · injection h with h'
      rw [← h']

theorem process_query_success_isSome (env : QueryEnv) (q : String) :
    (process_query env q).success.isSome := by
  unfold process_query
  cases h : simple_pipeline env q with
  | ok d => simp [simple_pipeline_ok_success env q h]
  | error e => rfl

theorem process_query_of_pipeline_error (env : QueryEnv) (q : String)
    (h : simple_pipeline env q = .error ()) :
    process_query env q = SIMPLE_FAIL := by
  unfold process_query
  rw [h]

end SimpleRag

namespace LlamaRag

theorem fallback_response_success_isSome (env : LIEnv) (q : String)
    (obs : List Obs) : (fallback_response env q obs).success.isSome := by
  unfold fallback_response
  cases env.fallbackLLM (fallback_context obs) q <;> rfl

theorem fallback_response_fail (env : LIEnv) (q : String) (obs : List Obs)
    (h : env.fallbackLLM (fallback_context obs) q = .error ()) :
    (fallback_response env q obs).success = some false := by
  unfold fallback_response
  rw [h]

end LlamaRag

/-! ## Concrete test data used by the witnesses -/

/-- An animal-store row used by the C6/C7 witnesses. -/
def sparrowObs : Obs :=
  ⟨"o2", "House Sparrow", "Rawal Lake", "2024-05-02", "", "", [73, 33]⟩

/-- A second animal-store row (exact-match target of C7). -/
def griffonObs : Obs :=
  ⟨"o1", "Himalayan Griffon", "Margalla Hills", "2024-05-01", "", "", [73, 33]⟩

/-- A plant-store row used by the C6 witness. -/
def pineObs : Obs :=
  ⟨"p1", "Chir Pine", "Trail 5", "2024-05-03", "", "", [73, 33]⟩

/-- A store holding both a plant-category and animal-category entries. -/
def mixedStore : Store :=
  ⟨[pineObs], [griffonObs, sparrowObs]⟩

/-- Two distinct observation rows with fresh ids. -/
def twoObs : List Obs :=
  [⟨"a", "Leopard", "Margalla", "d1", "", "", []⟩,
   ⟨"b", "Mallard", "Rawal", "d2", "", "", [73]⟩]

/-- Five observation rows with the known ids "1".."5". -/
def fiveObs : List Obs :=
  [⟨"1", "", "", "", "", "", []⟩, ⟨"2", "", "", "", "", "", []⟩,
   ⟨"3", "", "", "", "", "", []⟩, ⟨"4", "", "", "", "", "", []⟩,
   ⟨"5", "", "", "", "", "", []⟩]

/-- A `simple_rag` environment in which both the knowledge-file load
and the LLM call raise. -/
def failSimpleEnv : SimpleRag.QueryEnv :=
  ⟨.error (), ⟨[], []⟩, fun _ _ => .error ()⟩

/-- A route environment in which the semantic stage is unavailable and
the keyword fallback's pipeline raises. -/
def failRouteEnv : QueryRoutes.RouteEnv :=
  ⟨false, .raises, failSimpleEnv⟩

/-- A semantic-path environment in which the engine is unavailable and
everything downstream raises. -/
def failLIEnv : LlamaRag.LIEnv :=
  ⟨false, false, false, fun _ => .error (), fun _ _ => .error (),
   ⟨[], []⟩, failSimpleEnv⟩

/-! ## Claim theorems -/

open RagUpdater in
/-- C2: for any observation set O (distinct rows, ledger without
duplicates), running the sync action twice over the same O yields a
ledger in which each id of O appears exactly once, ids are never
removed across either run, and each observation-derived document is
inserted into the vector index at most once (the second run inserts
nothing). -/
theorem claim_C2_sync_idempotent (ie : Bool) (O : List Obs) (f : LedgerFile)
    (hL : (get_indexed_observations f).Nodup) (hO : O.Nodup) :
    (∀ o ∈ O, (get_indexed_observations
        (update_simple_rag O (update_simple_rag O f))).count o.id = 1) ∧
    (∀ x ∈ get_indexed_observations f,
        x ∈ get_indexed_observations (update_simple_rag O f)) ∧
    (∀ x ∈ get_indexed_observations (update_simple_rag O f),
        x ∈ get_indexed_observations
          (update_simple_rag O (update_simple_rag O f))) ∧
    (update_llamaindex ie O ((update_llamaindex ie O f).1)).2 = [] ∧
    (∀ o : Obs, ((update_llamaindex ie O f).2 ++
        (update_llamaindex ie O ((update_llamaindex ie O f).1)).2).count o ≤ 1) ∧
    (update_llamaindex ie O f).1 = update_simple_rag O f := by
  have h1nodup := update_simple_rag_nodup O f hL
  have h1mem := update_simple_rag_mem O f
  have hstable : update_simple_rag O (update_simple_rag O f) =
      update_simple_rag O f :=
    update_simple_rag_stable O _ h1mem
  have hsnd : (update_llamaindex ie O ((update_llamaindex ie O f).1)).2 = [] := by
    rw [update_llamaindex_fst]
    exact update_llamaindex_stable_snd ie O _ h1mem
  refine ⟨?_, ?_, ?_, hsnd, ?_, update_llamaindex_fst ie O f⟩
  · intro o ho
    rw [hstable]
    exact List.count_eq_one_of_mem h1nodup (h1mem o ho)
  · intro x hx
    exact update_simple_rag_mono O f hx
  · intro x hx
    rw [hstable]
    exact hx
  · intro o
    rw [List.count_append, hsnd]
    simpa using update_llamaindex_snd_count ie O f hO o

open RagUpdater in
/-- Witness for C2 at a concrete input: two fresh observations against
a one-id ledger. -/
theorem claim_C2_witness :
    ((get_indexed_observations (LedgerFile.ok ["x"])).Nodup ∧ twoObs.Nodup) ∧
    (∀ o ∈ twoObs,
      (get_indexed_observations
        (update_simple_rag twoObs
          (update_simple_rag twoObs (LedgerFile.ok ["x"])))).count o.id = 1) :=
  ⟨⟨by decide, by decide⟩,
   (claim_C2_sync_idempotent true twoObs
     (LedgerFile.ok ["x"]) (by decide) (by decide)).1⟩

open RagUpdater in
/-- C3: the code deadlocks instead.  `signal_update_needed` takes the
non-reentrant `update_lock` and, once the cooldown has elapsed, calls
`update_rag_index`, whose own `with update_lock:` blocks forever on
the already-held lock, so the handler never returns (modelled as
`none`) — evaluated here at a concrete post-cooldown call
(last update at t=0, notification at t=100). -/
theorem claim_C3_signal_deadlocks :
    signal_update_needed 100 ⟨false, 0, false⟩ = none ∧
    100 - 0 > UPDATE_COOLDOWN := by
  decide

/-- Supporting fact (not itself a claim): `save_observation` routes
every row that fails the plant heuristic to the animals file, so the
store invariant assumed in C6 — no animals-file entry satisfies
`is_plant_species` — is maintained by the write path. -/
theorem save_observation_animals_inv (o : Obs) (s : Store)
    (h : ∀ x ∈ s.animals, CsvService.is_plant_species x.species_name = false) :
    ∀ x ∈ (CsvService.save_observation o s).animals,
      CsvService.is_plant_species x.species_name = false := by
  unfold CsvService.save_observation
  split
  · exact h
  · next hp =>
    intro x hx
    rcases List.mem_append.mp hx with hx | hx
    · exact h x hx
    · rw [List.mem_singleton.mp hx]
      simpa using hp

open SimpleRag CsvService in
/-- C6: for a query containing an animal-category term and no
plant-category term, against a store whose animals file satisfies the
save-path invariant, every observation selected by the context
builder comes from `find_all_animal_observations` (the pool is
restricted before ranking) and no selected entry is plant-category. -/
theorem claim_C6_category_restriction (q : String) (s : Store)
    (ha : is_animal_query q = true) (hp : is_plant_query q = false)
    (hinv : ∀ o ∈ s.animals, is_plant_species o.species_name = false) :
    ∀ o ∈ get_relevant_observations q s,
      o ∈ find_all_animal_observations s ∧
      is_plant_species o.species_name = false := by
  intro o ho
  have hbase : base_observations q s = s.animals := by
    unfold base_observations
    rw [hp, ha]
    simp [find_all_animal_observations]
  have hmem := get_relevant_observations_subset q s o ho
  rw [hbase] at hmem
  exact ⟨hmem, hinv o hmem⟩

open SimpleRag CsvService in
/-- Witness for C6 at the spec's example: an animal-only query against
a store holding both a plant entry and animal entries. -/
theorem claim_C6_witness :
    (is_animal_query "What birds live near Rawal Lake?" = true ∧
     is_plant_query "What birds live near Rawal Lake?" = false ∧
     (∀ o ∈ mixedStore.animals, is_plant_species o.species_name = false) ∧
     mixedStore.plants ≠ []) ∧
    (∀ o ∈ get_relevant_observations "What birds live near Rawal Lake?" mixedStore,
      o ∈ find_all_animal_observations mixedStore ∧
      is_plant_species o.species_name = false) :=
  ⟨⟨by decide, by decide, by decide, by decide⟩,
   claim_C6_category_restriction "What birds live near Rawal Lake?" mixedStore
     (by decide) (by decide) (by decide)⟩

open SimpleRag in
/-- C7: when some observation's species name occurs (case-insensitively)
inside the query, the selection consists exactly of the exact-match
loop's output, capped at 10: every returned observation is an exact
match (term-matched candidates are short-circuited away), every exact
match in the pool enters the exact-candidate list, and for a
duplicate-free pool with at most 10 exact matches the selection is
precisely the exact matches, in pool order. -/
theorem claim_C7_exact_match_priority (q : String) (s : Store)
    (h : ∃ o ∈ base_observations q s,
      exact_species_match (pyLower q) o = true) :
    (∀ o ∈ get_relevant_observations q s,
      exact_species_match (pyLower q) o = true) ∧
    (∀ o ∈ base_observations q s,
      exact_species_match (pyLower q) o = true →
      o ∈ exact_candidates q (base_observations q s)) ∧
    get_relevant_observations q s =
      (exact_candidates q (base_observations q s)).take 10 ∧
    ((base_observations q s).Nodup →
      ((base_observations q s).filter
        (exact_species_match (pyLower q))).length ≤ 10 →
      get_relevant_observations q s =
        (base_observations q s).filter (exact_species_match (pyLower q))) := by
  obtain ⟨w, hw, hwp⟩ := h
  have hwex : w ∈ exact_candidates q (base_observations q s) :=
    exactLoop_mem_of (pyLower q) _ hw hwp
  have hne : (exact_candidates q (base_observations q s)).isEmpty = false := by
    rw [List.isEmpty_eq_false]
    exact List.ne_nil_of_mem hwex
  have htake : get_relevant_observations q s =
      (exact_candidates q (base_observations q s)).take 10 := by
    unfold get_relevant_observations
    rw [hne]
    simp
  refine ⟨?_, ?_, htake, ?_⟩
  · intro o ho
    rw [htake] at ho
    exact exact_candidates_pred q _ (List.take_subset _ _ ho)
  · intro o ho hop
    exact exactLoop_mem_of (pyLower q) _ ho hop
  · intro hnd hlen
    have heq : exact_candidates q (base_observations q s) =
        (base_observations q s).filter (exact_species_match (pyLower q)) := by
      unfold exact_candidates
      rw [exactLoop_eq_filter (pyLower q) _ [] hnd (by simp)]
      simp
    rw [htake, heq, List.take_of_length_le hlen]

open SimpleRag in
/-- Witness for C7 at the spec's example: the "Himalayan Griffon"
observation against the query "Tell me about the Himalayan Griffon",
alongside a location-term-matchable candidate; the selection is
exactly the Griffon observation. -/
theorem claim_C7_witness :
    (∃ o ∈ base_observations "Tell me about the Himalayan Griffon" mixedStore,
      exact_species_match (pyLower "Tell me about the Himalayan Griffon") o = true) ∧
    get_relevant_observations "Tell me about the Himalayan Griffon" mixedStore =
      (base_observations "Tell me about the Himalayan Griffon" mixedStore).filter
        (exact_species_match (pyLower "Tell me about the Himalayan Griffon")) ∧
    get_relevant_observations "Tell me about the Himalayan Griffon" mixedStore =
      [griffonObs] :=
  ⟨⟨griffonObs, by decide, by decide⟩,
   (claim_C7_exact_match_priority "Tell me about the Himalayan Griffon" mixedStore
     ⟨griffonObs, by decide, by decide⟩).2.2.2 (by decide) (by decide),
   by decide⟩

open SimpleRag in
/-- C5: the context actually handed to the LLM prompt is never blank:
for every query, corpus snapshot and observation store, it is
non-empty, and when both the knowledge selection and the observation
selection are empty it is exactly the fixed "no information found"
sentinel. -/
theorem claim_C5_never_blank_context (q : String) (kfs : List Knowledge)
    (s : Store) :
    context_for_llm q kfs (get_relevant_observations q s) ≠ "" ∧
    (selected_knowledge q kfs = [] → get_relevant_observations q s = [] →
      context_for_llm q kfs (get_relevant_observations q s) = SENTINEL) := by
  constructor
  · unfold context_for_llm
    split
    · decide
    · next h => exact h
  · intro hk hobs
    have hempty : build_context q kfs (get_relevant_observations q s) = "" := by
      unfold build_context
      rw [hk, hobs]
      simp
    unfold context_for_llm
    rw [if_pos hempty]

open SimpleRag in
/-- Witness for C5 at the spec's example: the vocabulary-free query
"xyzzy" against an empty corpus and store. -/
theorem claim_C5_witness :
    (selected_knowledge "xyzzy" [] = [] ∧
     get_relevant_observations "xyzzy" ⟨[], []⟩ = []) ∧
    context_for_llm "xyzzy" []
      (get_relevant_observations "xyzzy" ⟨[], []⟩) = SENTINEL ∧
    context_for_llm "xyzzy" []
      (get_relevant_observations "xyzzy" ⟨[], []⟩) ≠ "" :=
  ⟨⟨by decide, by decide⟩,
   (claim_C5_never_blank_context "xyzzy" [] ⟨[], []⟩).2 (by decide) (by decide),
   (claim_C5_never_blank_context "xyzzy" [] ⟨[], []⟩).1⟩

open SimpleRag in
/-- C8 fails on the code: the category-specific knowledge loop at the
top of `build_context` appends matching file contents without the
duplicate check used by `get_relevant_knowledge`, so two knowledge
files with identical content (here both "plant life", matched by the
plant-leaning query) are rendered twice in the same context. -/
theorem claim_C8_duplicate_document :
    selected_knowledge "What plants grow here"
      [⟨"a.txt", "plant life"⟩, ⟨"b.txt", "plant life"⟩] =
      ["plant life", "plant life"] ∧
    (selected_knowledge "What plants grow here"
      [⟨"a.txt", "plant life"⟩, ⟨"b.txt", "plant life"⟩]).count "plant life" = 2 ∧
    build_context "What plants grow here"
      [⟨"a.txt", "plant life"⟩, ⟨"b.txt", "plant life"⟩] [] =
      "Knowledge Base Information:\n[1] plant life...\n\n[2] plant life...\n\n" := by
  refine ⟨by decide, by decide, by decide⟩

open SimpleRag in
/-- C10: `format_observations` emits exactly one feature per
observation with a present, non-empty coordinates value, in input
order; each feature has geometry type "Point" and the observation's
coordinates, id, species, date, location and notes; and the feature
list is empty whenever no input observation carries coordinates. -/
theorem claim_C10_format_observations (l : List Obs) :
    format_observations l =
      (l.filter (fun o => !o.coordinates.isEmpty)).map obs_feature ∧
    ((∀ o ∈ l, o.coordinates = []) → format_observations l = []) ∧
    (∀ f ∈ format_observations l, f.geomType = "Point" ∧
      ∃ o ∈ l, !o.coordinates.isEmpty = true ∧ f = obs_feature o) := by
  have hmain : format_observations l =
      (l.filter (fun o => !o.coordinates.isEmpty)).map obs_feature := by
    induction l with
    | nil => rfl
    | cons o os ih =>
      by_cases hc : o.coordinates.isEmpty = true <;>
        simp [format_observations, List.filter_cons, hc, ih]
  refine ⟨hmain, ?_, ?_⟩
  · intro hall
    rw [hmain]
    have hnil : l.filter (fun o => !o.coordinates.isEmpty) = [] := by
      rw [List.filter_eq_nil_iff]
      intro o ho
      simp [hall o ho]
    rw [hnil]
    rfl
  · intro f hf
    rw [hmain] at hf
    obtain ⟨o, ho, rfl⟩ := List.mem_map.mp hf
    have ho' := List.mem_filter.mp ho
    exact ⟨rfl, o, ho'.1, by simpa using ho'.2, rfl⟩

open SimpleRag in
/-- Witness for C10 at a concrete input: a singleton list whose only
observation has empty/absent coordinates yields no features. -/
theorem claim_C10_witness :
    (∀ o ∈ ([⟨"n", "Rhesus Macaque", "Daman-e-Koh", "d", "", "", []⟩] : List Obs),
      o.coordinates = []) ∧
    format_observations
      [⟨"n", "Rhesus Macaque", "Daman-e-Koh", "d", "", "", []⟩] = [] :=
  ⟨by decide,
   (claim_C10_format_observations
     [⟨"n", "Rhesus Macaque", "Daman-e-Koh", "d", "", "", []⟩]).2.1 (by decide)⟩

open RagUpdater in
/-- C9: an unreadable/unparseable (or missing) ledger file reads as
the empty ledger without raising, and a subsequent sync run over an
observation set with distinct ids rewrites the ledger to exactly those
ids, no duplicates, no omissions. -/
theorem claim_C9_ledger_recovery :
    get_indexed_observations .corrupt = [] ∧
    get_indexed_observations .missing = [] ∧
    ∀ (O : List Obs), (O.map (·.id)).Nodup →
      get_indexed_observations (update_simple_rag O .corrupt) =
        O.map (·.id) := by
  refine ⟨rfl, rfl, ?_⟩
  intro O hids
  have hfilter : O.filter (fun o =>
      !(decide (o.id ∈ get_indexed_observations LedgerFile.corrupt))) = O := by
    simp [get_indexed_observations]
  unfold update_simple_rag
  rw [hfilter]
  split
  · next h =>
    rw [List.isEmpty_iff] at h
    subst h
    rfl
  · simpa [foldLog, get_indexed_observations] using
      foldLog_fresh O .corrupt hids (by simp [get_indexed_observations])

open QueryRoutes in
/-- C1: for every query and environment, the entry point returns a
well-formed response and never lets an exception escape; and whenever
the semantic stage fails (unavailable, raising, or unsuccessful) and
the keyword-fallback pipeline also raises, the returned body is the
fixed apology dict: `success = false`, the fixed apologetic text, and
an empty observation list. -/
theorem claim_C1_entry_point_failure_shape (env : RouteEnv) (q : String) :
    (∃ r, handle_query env q = .ok r) ∧
    (SimpleRag.SIMPLE_FAIL.success = some false ∧
     SimpleRag.SIMPLE_FAIL.observations = some ([] : List Feature) ∧
     SimpleRag.SIMPLE_FAIL.response =
       "I\x27m sorry, I\x27m having trouble processing your question at the moment. Please try again later.") ∧
    ((env.llamaAvailable = false ∨ env.llamaOutcome = .raises ∨
      (∃ d, env.llamaOutcome = .retn d ∧ d.success ≠ some true)) →
     SimpleRag.simple_pipeline env.simpleEnv q = .error () →
     handle_query env q = .ok ⟨SimpleRag.SIMPLE_FAIL, 200⟩) := by
  obtain ⟨avail, outcome, senv⟩ := env
  refine ⟨?_, ⟨rfl, rfl, rfl⟩, ?_⟩
  · cases avail with
    | false => exact ⟨_, rfl⟩
    | true =>
      cases outcome with
      | raises => exact ⟨_, rfl⟩
      | retn d =>
        by_cases hd : d.success = some true
        · exact ⟨⟨d, 200⟩, by simp [handle_query, hd]⟩
        · exact ⟨⟨SimpleRag.process_query senv q, 200⟩,
            by simp [handle_query, hd]⟩
  · intro hsem hpipe
    have hs : SimpleRag.process_query senv q = SimpleRag.SIMPLE_FAIL :=
      SimpleRag.process_query_of_pipeline_error senv q hpipe
    cases avail with
    | false => simp [handle_query, hs]
    | true =>
      cases outcome with
      | raises => simp [handle_query, hs]
      | retn d =>
        have hd : ¬d.success = some true := by
          rcases hsem with h | h | ⟨d', hd', hne⟩
          · simp at h
          · simp at h
          · simp only at hd'
            injection hd' with h'
            rw [h']
            exact hne
        simp [handle_query, hd, hs]

open QueryRoutes in
/-- Witness for C1 at a concrete input: semantic stage unavailable,
knowledge load and LLM call raising. -/
theorem claim_C1_witness :
    (failRouteEnv.llamaAvailable = false ∧
     SimpleRag.simple_pipeline failRouteEnv.simpleEnv "any question" =
       .error ()) ∧
    handle_query failRouteEnv "any question" =
      .ok ⟨SimpleRag.SIMPLE_FAIL, 200⟩ :=
  ⟨⟨rfl, rfl⟩,
   (claim_C1_entry_point_failure_shape failRouteEnv "any question").2.2
     (Or.inl rfl) rfl⟩

open LlamaRag in
/-- C4: the semantic-retrieval query operation never raises to the
orchestrator — it always returns a dict — and that dict carries a
success flag on every path; in particular, engine unavailable and
index-never-built both divert to the keyword fallback, and an engine
failure followed by a fallback-LLM failure yields `success = false`. -/
theorem claim_C4_semantic_query_total (env : LIEnv) (q : String) :
    ∃ d, LlamaRag.process_query env q = .ok d ∧ d.success.isSome = true ∧
      (env.available = false → d = SimpleRag.process_query env.simpleEnv q) ∧
      (env.available = true → env.indexInitialized = false →
        env.initOutcome = false →
        d = SimpleRag.process_query env.simpleEnv q) ∧
      (env.available = true → (env.indexInitialized || env.initOutcome) = true →
        env.engineQuery q = .error () →
        env.fallbackLLM
          (fallback_context (collect_observations env.store
            (extract_key_terms q))) q = .error () →
        d.success = some false) := by
  cases ha : env.available with
  | false =>
    refine ⟨SimpleRag.process_query env.simpleEnv q, ?_, ?_, fun _ => rfl,
      fun h => Bool.noConfusion h, fun h => Bool.noConfusion h⟩
    · unfold LlamaRag.process_query
      rw [ha]
      simp
    · simp [SimpleRag.process_query_success_isSome]
  | true =>
    cases hd : (env.indexInitialized || env.initOutcome) with
    | false =>
      have hii : env.indexInitialized = false := by
        cases hi : env.indexInitialized
        · rfl
        · rw [hi] at hd; simp at hd
      have hio : env.initOutcome = false := by
        cases hi : env.initOutcome
        · rfl
        · rw [hi] at hd; simp at hd
      refine ⟨SimpleRag.process_query env.simpleEnv q, ?_, ?_,
        fun h => Bool.noConfusion h, fun _ _ _ => rfl,
        fun _ h => Bool.noConfusion h⟩
      · unfold LlamaRag.process_query
        rw [ha, hii, hio]
        simp
      · simp [SimpleRag.process_query_success_isSome]
    | true =>
      have hcond : (!env.indexInitialized && !env.initOutcome) = false := by
        rw [← Bool.not_or, hd]
        rfl
      cases he : env.engineQuery q with
      | ok resp =>
        refine ⟨⟨resp, some true,
            some (SimpleRag.format_observations
              (collect_observations env.store (extract_key_terms q))),
            none, none⟩, ?_, rfl,
          fun h => Bool.noConfusion h, ?_, ?_⟩
        · unfold LlamaRag.process_query
          rw [ha, hcond, he]
          simp
        · intro _ hi hio2
          rw [hi, hio2] at hd
          simp at hd
        · intro _ _ h _
          exact Except.noConfusion h
      | error e =>
        refine ⟨fallback_response env q
          (collect_observations env.store (extract_key_terms q)), ?_,
          fallback_response_success_isSome env q _,
          fun h => Bool.noConfusion h, ?_, ?_⟩
        · unfold LlamaRag.process_query
          rw [ha, hcond, he]
          simp
        · intro _ hi hio2
          rw [hi, hio2] at hd
          simp at hd
        · intro _ _ _ hfb
          exact fallback_response_fail env q _ hfb

open LlamaRag in
/-- Witness for C4 at a concrete input: engine unavailable and every
downstream call raising; the returned dict is the fixed apology with
`success = false`. -/
theorem claim_C4_witness :
    ∃ d, LlamaRag.process_query failLIEnv "any question" = .ok d ∧
      d.success.isSome = true ∧ d = SimpleRag.SIMPLE_FAIL := by
  obtain ⟨d, h1, h2, h3, _⟩ :=
    claim_C4_semantic_query_total failLIEnv "any question"
  refine ⟨d, h1, h2, ?_⟩
  rw [h3 rfl]
  rfl

open RagUpdater in
/-- Witness for C9 at a concrete input: five known ids against a
corrupted ledger file. -/
theorem claim_C9_witness :
    (fiveObs.map (·.id)).Nodup ∧
    get_indexed_observations (update_simple_rag fiveObs .corrupt) =
      ["1", "2", "3", "4", "5"] :=
  ⟨by decide,
   by
    rw [claim_C9_ledger_recovery.2.2 fiveObs (by decide)]
    decide⟩

end BioScout
